import Mathlib

/-!
Shallow embedding of the `rust-mongodb-id` crate (`src/lib.rs`): the `ID`
value type (ObjectId / String / Int64), its string conversion with the
`$oid:` prefix convention, its BSON conversion, and its serde text codec.

BSON and `ObjectId` come from the `bson` dependency (v1.x API,
`ObjectId::with_string`); the parts of that dependency that the crate
exercises are modelled here: hex encoding/decoding of the 12-byte object
id, the dynamic `Bson` value, and the extended-JSON `$oid` map decoding.
-/

namespace MongoId

/-- Lowercase hex digit for a nibble, as produced by the bson crate's
`ObjectId::to_hex` (`hex::encode`, lowercase). -/
def hexChar (n : Nat) : Char :=
  if n < 10 then Char.ofNat (48 + n) else Char.ofNat (97 + (n - 10))

/-- Hex digit value of a character; `hex::decode` accepts both cases. -/
def hexDigit (c : Char) : Option Nat :=
  if 48 ≤ c.toNat ∧ c.toNat ≤ 57 then some (c.toNat - 48)
  else if 97 ≤ c.toNat ∧ c.toNat ≤ 102 then some (c.toNat - 97 + 10)
  else if 65 ≤ c.toNat ∧ c.toNat ≤ 70 then some (c.toNat - 65 + 10)
  else none

/-- Two lowercase hex characters of one byte. -/
def byteToHex (b : Nat) : List Char := [hexChar (b / 16), hexChar (b % 16)]

/-- `hex::decode`: pairs of hex characters to bytes; fails on a non-hex
character or an odd number of characters. -/
def decodeHexPairs : List Char → Option (List Nat)
  | [] => some []
  | [_] => none
  | c1 :: c2 :: rest =>
    match hexDigit c1, hexDigit c2, decodeHexPairs rest with
    | some h, some l, some bs => some ((16 * h + l) :: bs)
    | _, _, _ => none

/-- The bson crate's 12-byte object id.  The byte list is kept plain; being
a well-formed id (12 bytes, each below 256) is the `valid` predicate. -/
structure ObjectId where
  bytes : List Nat
deriving DecidableEq, Repr

/-- A well-formed object id: exactly 12 bytes, each a byte value. -/
def ObjectId.valid (o : ObjectId) : Prop :=
  o.bytes.length = 12 ∧ ∀ b ∈ o.bytes, b < 256

instance (o : ObjectId) : Decidable o.valid := by
  unfold ObjectId.valid; infer_instance

/-- `ObjectId::to_hex` / `Display for ObjectId`: 24 lowercase hex chars. -/
def ObjectId.to_hex (o : ObjectId) : String :=
  String.mk (o.bytes.flatMap byteToHex)

/-- `ObjectId::with_string`: hex-decode the string and require 12 bytes;
`none` models the `Err` result. -/
def ObjectId.with_string (s : String) : Option ObjectId :=
  match decodeHexPairs s.data with
  | some bs => if bs.length = 12 then some ⟨bs⟩ else none
  | none => none

/-- Rust's `str::starts_with` on strings (the prefixes used by the crate
are pure ASCII, where byte-prefix and char-prefix coincide). -/
def strStartsWith (s p : String) : Bool := p.data.isPrefixOf s.data

/-- Rust's `&s[n..]` at a char boundary reached by an ASCII prefix. -/
def strDrop (s : String) (n : Nat) : String := String.mk (s.data.drop n)

end MongoId

/-- The crate's `ID` enum: `ObjectId(ObjectId) | String(String) | Int64(i64)`. -/
inductive ID where
  | ObjectId (o : MongoId.ObjectId)
  | String (s : String)
  | Int64 (i : Int)
deriving DecidableEq, Repr

namespace MongoId

/-- `ID::from_string`: `$oid:`-prefixed strings are parsed as object ids,
falling back to `ID::String` of the whole original string on parse
failure; all other strings become `ID::String`. -/
def ID.from_string (s : String) : ID :=
  if strStartsWith s "$oid:" then
    match ObjectId.with_string (strDrop s 5) with
    | some oid => ID.ObjectId oid
    | none => ID.String s
  else ID.String s

/-- `impl From<ID> for String`. -/
def stringFromID : ID → String
  | ID.ObjectId o => "$oid:" ++ o.to_hex
  | ID.String s => s
  | ID.Int64 i => toString i

/-- The inherent `ID::to_string`, defined as `self.clone().into()`. -/
def ID.to_string (id : ID) : String := stringFromID id

/-- `impl fmt::Display for ID`, which writes `self.to_string()` (the
inherent method, i.e. the `Into<String>` conversion). -/
def ID.display (id : ID) : String := ID.to_string id

/-- Rust's `u64 as i64` cast: two's-complement reinterpretation of the
same 64 bits. -/
def u64AsI64 (u : Nat) : Int :=
  if u < 2 ^ 63 then (u : Int) else (u : Int) - 2 ^ 64

end MongoId

/-- The bson crate's dynamic value, restricted to the node kinds the
crate's code paths can produce or receive. -/
inductive Bson where
  | String (s : String)
  | ObjectId (o : MongoId.ObjectId)
  | Int64 (i : Int)
  | Int32 (i : Int)
  | Double
  | Boolean (b : Bool)
  | Null
  | Array (xs : List Bson)
  | Document (kvs : List (String × Bson))
deriving Repr

namespace MongoId

/-- `ID::with_bson`: the three supported node kinds map to the matching
variant; every other node kind hits the `panic!` arm, modelled as `none`. -/
def ID.with_bson : Bson → Option ID
  | Bson.String s => some (ID.String s)
  | Bson.ObjectId o => some (ID.ObjectId o)
  | Bson.Int64 i => some (ID.Int64 i)
  | _ => none

/-- `ID::to_bson`. -/
def ID.to_bson : ID → Bson
  | ID.ObjectId o => Bson.ObjectId o
  | ID.String s => Bson.String s
  | ID.Int64 i => Bson.Int64 i

/-- `impl From<ID> for ObjectId`: the narrowing conversion; the `unwrap()`
on a failed parse (panic) is modelled as `none`. -/
def objectIdFromID : ID → Option ObjectId
  | ID.ObjectId o => some o
  | ID.String s => ObjectId.with_string s
  | ID.Int64 i => ObjectId.with_string (toString i)

end MongoId

/-- A self-describing text-codec (JSON-like) value, as serde's
`deserialize_any` dispatches on it.  Float payloads are irrelevant to
every code path modelled here, so `float` carries none. -/
inductive JValue where
  | str (s : String)
  | int (i : Int)
  | uint (u : Nat)
  | bool (b : Bool)
  | float
  | null
  | arr (xs : List JValue)
  | obj (kvs : List (String × JValue))
deriving Repr

/-- Outcome of a serde decode in this model: a recoverable decode error
(serde's `Error::invalid_type`) is distinguished from a process-aborting
`panic!`. -/
inductive DeError where
  | decode (msg : String)
  | panic (msg : String)
deriving DecidableEq, Repr

namespace MongoId

/-- The bson crate's `Bson::from_extended_document` on the paths the crate
can reach: a single-entry document `{"$oid": <string>}` becomes an
`ObjectId` node when the hex parses, panics (`unwrap`) when it does not;
every other document stays an embedded `Document` node. -/
def bsonFromExtendedDocument (kvs : List (String × Bson)) : Except DeError Bson :=
  match kvs with
  | [("$oid", Bson.String s)] =>
    match ObjectId.with_string s with
    | some o => Except.ok (Bson.ObjectId o)
    | none => Except.error (DeError.panic "invalid ObjectId hex")
  | _ => Except.ok (Bson.Document kvs)

mutual

/-- `Bson::deserialize` from a self-describing text-codec value (the bson
crate's `BsonVisitor`): scalars map to the matching node, sequences to
`Array`, maps go through `from_extended_document`. -/
def bsonOfJValue : JValue → Except DeError Bson
  | JValue.str s => Except.ok (Bson.String s)
  | JValue.int i => Except.ok (Bson.Int64 i)
  | JValue.uint u => Except.ok (Bson.Int64 (u64AsI64 u))
  | JValue.bool b => Except.ok (Bson.Boolean b)
  | JValue.float => Except.ok Bson.Double
  | JValue.null => Except.ok Bson.Null
  | JValue.arr xs => do
    let ys ← bsonOfJList xs
    Except.ok (Bson.Array ys)
  | JValue.obj kvs => do
    let doc ← bsonOfJKVs kvs
    bsonFromExtendedDocument doc

def bsonOfJList : List JValue → Except DeError (List Bson)
  | [] => Except.ok []
  | v :: vs => do
    let b ← bsonOfJValue v
    let bs ← bsonOfJList vs
    Except.ok (b :: bs)

def bsonOfJKVs : List (String × JValue) → Except DeError (List (String × Bson))
  | [] => Except.ok []
  | (k, v) :: kvs => do
    let b ← bsonOfJValue v
    let bs ← bsonOfJKVs kvs
    Except.ok ((k, b) :: bs)

end

/-- `impl Serialize for ID` under a JSON-like serializer: an object id
serializes as the single-entry map `{"$oid": <24 hex chars>}` (the entry
value is `ObjectId`'s `Display`, i.e. `to_hex`), a string as a plain
string, an `Int64` as a plain signed integer. -/
def ID.serialize : ID → JValue
  | ID.ObjectId o => JValue.obj [("$oid", JValue.str o.to_hex)]
  | ID.String s => JValue.str s
  | ID.Int64 i => JValue.int i

/-- The `expecting` text of `IDVisitor`. -/
def idExpecting : String := "unable to parse ID - was not Bson or Json string"

/-- `impl Deserialize for ID` via `deserialize_any` and `IDVisitor`:
strings use `ID::from_string`; `i64`/`u64` scalars become `Int64` (`u64`
through the `as i64` cast); maps are re-dispatched into the `Bson`
deserializer and then through `ID::with_bson`, whose `panic!` arm is a
`DeError.panic`; every shape with no visitor method (bool, float, null,
sequence) is serde's recoverable `invalid_type` decode error. -/
def ID.deserialize : JValue → Except DeError ID
  | JValue.str s => Except.ok (ID.from_string s)
  | JValue.int i => Except.ok (ID.Int64 i)
  | JValue.uint u => Except.ok (ID.Int64 (u64AsI64 u))
  | JValue.bool b =>
    Except.error (DeError.decode ("invalid type: boolean " ++ toString b ++ ", expected " ++ idExpecting))
  | JValue.float =>
    Except.error (DeError.decode ("invalid type: floating point, expected " ++ idExpecting))
  | JValue.null =>
    Except.error (DeError.decode ("invalid type: null, expected " ++ idExpecting))
  | JValue.arr _ =>
    Except.error (DeError.decode ("invalid type: sequence, expected " ++ idExpecting))
  | JValue.obj kvs => do
    let doc ← bsonOfJKVs kvs
    let b ← bsonFromExtendedDocument doc
    match ID.with_bson b with
    | some id => Except.ok id
    | none => Except.error (DeError.panic "Invalid id type used")

/-- A lowercase hex digit character. -/
def isLowerHexChar (c : Char) : Bool :=
  (48 ≤ c.toNat && c.toNat ≤ 57) || (97 ≤ c.toNat && c.toNat ≤ 102)

/-- The object id of the crate's own test `test_convert_id_from_oid`,
whose hex form is `5eaefffa00c9fdf000c46fdc`. -/
def oidTest : ObjectId :=
  ⟨[94, 174, 255, 250, 0, 201, 253, 240, 0, 196, 111, 220]⟩

/-! ### Hex round-trip lemmas -/

theorem hexDigit_hexChar {n : Nat} (h : n < 16) : hexDigit (hexChar n) = some n := by
  interval_cases n <;> decide

theorem isLowerHexChar_hexChar {n : Nat} (h : n < 16) : isLowerHexChar (hexChar n) = true := by
  interval_cases n <;> decide

theorem decodeHexPairs_flatMap :
    ∀ bs : List Nat, (∀ b ∈ bs, b < 256) →
      decodeHexPairs (bs.flatMap byteToHex) = some bs := by
  intro bs
  induction bs with
  | nil => intro _; rfl
  | cons b bs ih =>
    intro h
    have hb : b < 256 := h b (List.mem_cons_self b bs)
    have hdiv : b / 16 < 16 := Nat.div_lt_of_lt_mul (by omega)
    have hmod : b % 16 < 16 := Nat.mod_lt b (by omega)
    have hrest := ih (fun x hx => h x (List.mem_cons_of_mem b hx))
    have hflat : (b :: bs).flatMap byteToHex
        = hexChar (b / 16) :: hexChar (b % 16) :: bs.flatMap byteToHex := by
      simp [List.flatMap_cons, byteToHex]
    rw [hflat]
    show (match hexDigit (hexChar (b / 16)), hexDigit (hexChar (b % 16)),
        decodeHexPairs (bs.flatMap byteToHex) with
      | some h, some l, some bs => some ((16 * h + l) :: bs)
      | _, _, _ => none) = some (b :: bs)
    rw [hexDigit_hexChar hdiv, hexDigit_hexChar hmod, hrest]
    show some ((16 * (b / 16) + b % 16) :: bs) = some (b :: bs)
    rw [Nat.div_add_mod b 16]

theorem length_flatMap_byteToHex (bs : List Nat) :
    (bs.flatMap byteToHex).length = 2 * bs.length := by
  induction bs with
  | nil => rfl
  | cons b bs ih =>
    have hflat : (b :: bs).flatMap byteToHex
        = hexChar (b / 16) :: hexChar (b % 16) :: bs.flatMap byteToHex := by
      simp [List.flatMap_cons, byteToHex]
    rw [hflat]
    simp only [List.length_cons, ih]
    omega

theorem with_string_to_hex {o : ObjectId} (h : o.valid) :
    ObjectId.with_string o.to_hex = some o := by
  obtain ⟨hlen, hbytes⟩ := h
  show (match decodeHexPairs (o.bytes.flatMap byteToHex) with
    | some bs => if bs.length = 12 then some ⟨bs⟩ else none
    | none => none) = some o
  rw [decodeHexPairs_flatMap o.bytes hbytes]
  simp [hlen]

theorem to_hex_length {o : ObjectId} (h : o.valid) : o.to_hex.length = 24 := by
  show (o.bytes.flatMap byteToHex).length = 24
  rw [length_flatMap_byteToHex, h.1]

theorem to_hex_lower_hex {o : ObjectId} (h : o.valid) :
    ∀ c ∈ o.to_hex.data, isLowerHexChar c = true := by
  intro c hc
  have hc' : c ∈ o.bytes.flatMap byteToHex := hc
  obtain ⟨b, hb, hcb⟩ := List.mem_flatMap.mp hc'
  have hblt : b < 256 := h.2 b hb
  have hdiv : b / 16 < 16 := Nat.div_lt_of_lt_mul (by omega)
  have hmod : b % 16 < 16 := Nat.mod_lt b (by omega)
  simp only [byteToHex, List.mem_cons, List.not_mem_nil, or_false] at hcb
  rcases hcb with rfl | rfl
  · exact isLowerHexChar_hexChar hdiv
  · exact isLowerHexChar_hexChar hmod

/-! ### String prefix lemmas -/

theorem strStartsWith_append (p t : String) : strStartsWith (p ++ t) p = true := by
  simp [strStartsWith, String.data_append]

theorem strDrop_oid_append (t : String) : strDrop ("$oid:" ++ t) 5 = t := by
  cases t with
  | mk d =>
    show String.mk ((("$oid:" : String).data ++ d).drop 5) = String.mk d
    rw [List.drop_left' (by rfl)]

theorem from_string_to_hex {o : ObjectId} (h : o.valid) :
    ID.from_string ("$oid:" ++ o.to_hex) = ID.ObjectId o := by
  unfold ID.from_string
  rw [strStartsWith_append, strDrop_oid_append, with_string_to_hex h]
  rfl

/-! ### Claim theorems -/

/-- C1: `ID::from_string` is total and never fails: a `$oid:`-prefixed
string whose remainder parses as an object id `o` yields `ID.ObjectId o`;
a `$oid:`-prefixed string whose remainder fails to parse yields
`ID.String` of the original full string; a string without the prefix
yields `ID.String` of that string. -/
theorem from_string_spec (s : String) :
    (∀ o, strStartsWith s "$oid:" = true →
      ObjectId.with_string (strDrop s 5) = some o → ID.from_string s = ID.ObjectId o) ∧
    (strStartsWith s "$oid:" = true →
      ObjectId.with_string (strDrop s 5) = none → ID.from_string s = ID.String s) ∧
    (strStartsWith s "$oid:" = false → ID.from_string s = ID.String s) := by
  refine ⟨fun o h1 h2 => ?_, fun h1 h2 => ?_, fun h1 => ?_⟩
  · simp [ID.from_string, h1, h2]
  · simp [ID.from_string, h1, h2]
  · simp [ID.from_string, h1]

/-- Witness for C1 at the crate's own test inputs. -/
theorem from_string_spec_witness :
    ID.from_string "$oid:5eaefffa00c9fdf000c46fdc" = ID.ObjectId oidTest ∧
    ID.from_string "$oid:not_valid" = ID.String "$oid:not_valid" ∧
    ID.from_string "Something" = ID.String "Something" :=
  ⟨(from_string_spec "$oid:5eaefffa00c9fdf000c46fdc").1 oidTest (by decide) (by decide),
   (from_string_spec "$oid:not_valid").2.1 (by decide) (by decide),
   (from_string_spec "Something").2.2 (by decide)⟩

/-- C2: string round trip: a string without the `$oid:` prefix comes back
unchanged through `from_string` then `Into<String>`; a valid object id
`o` comes back as `ID.ObjectId o` from `from_string ("$oid:" ++ hex o)`,
and its string conversion is exactly `"$oid:" ++ hex o` again. -/
theorem from_string_round_trip (s : String) (o : ObjectId) :
    (strStartsWith s "$oid:" = false →
      ID.from_string s = ID.String s ∧ stringFromID (ID.from_string s) = s) ∧
    (o.valid →
      ID.from_string ("$oid:" ++ o.to_hex) = ID.ObjectId o ∧
      stringFromID (ID.from_string ("$oid:" ++ o.to_hex)) = "$oid:" ++ o.to_hex) := by
  constructor
  · intro h1
    have he : ID.from_string s = ID.String s := by simp [ID.from_string, h1]
    exact ⟨he, by rw [he]; rfl⟩
  · intro hv
    have he := from_string_to_hex hv
    exact ⟨he, by rw [he]; rfl⟩

/-- Witness for C2 at a plain string and at the crate's test object id. -/
theorem from_string_round_trip_witness :
    stringFromID (ID.from_string "hello") = "hello" ∧
    ID.from_string ("$oid:" ++ oidTest.to_hex) = ID.ObjectId oidTest ∧
    stringFromID (ID.from_string ("$oid:" ++ oidTest.to_hex)) = "$oid:" ++ oidTest.to_hex :=
  ⟨((from_string_round_trip "hello" oidTest).1 (by decide)).2,
   ((from_string_round_trip "hello" oidTest).2 (by decide)).1,
   ((from_string_round_trip "hello" oidTest).2 (by decide)).2⟩

/-- C3: the binary-document codec round-trips all three variants:
`with_bson (to_bson x) = some x`, and the encoding is variant-preserving
(object id to an `ObjectId` node, string to a `String` node, integer to
an `Int64` node). -/
theorem bson_round_trip (x : ID) :
    ID.with_bson (ID.to_bson x) = some x ∧
    (∀ o, ID.to_bson (ID.ObjectId o) = Bson.ObjectId o) ∧
    (∀ s, ID.to_bson (ID.String s) = Bson.String s) ∧
    (∀ i, ID.to_bson (ID.Int64 i) = Bson.Int64 i) := by
  refine ⟨?_, fun _ => rfl, fun _ => rfl, fun _ => rfl⟩
  cases x <;> rfl

/-- C4: `Display` and the `Into<String>` conversion agree byte-for-byte on
every `ID`, and the shared projection maps an object id to `"$oid:"`
followed by its 24-character lowercase hex, a string to itself, and an
integer to its decimal string. -/
theorem display_canonical :
    (∀ x : ID, ID.display x = stringFromID x) ∧
    (∀ o : ObjectId, o.valid →
      ID.display (ID.ObjectId o) = "$oid:" ++ o.to_hex ∧
      o.to_hex.length = 24 ∧ ∀ c ∈ o.to_hex.data, isLowerHexChar c = true) ∧
    (∀ s, ID.display (ID.String s) = s) ∧
    (∀ i : Int, ID.display (ID.Int64 i) = toString i) :=
  ⟨fun _ => rfl,
   fun _ hv => ⟨rfl, to_hex_length hv, to_hex_lower_hex hv⟩,
   fun _ => rfl, fun _ => rfl⟩

/-- Witness for C4 at the crate's test object id and a negative integer. -/
theorem display_canonical_witness :
    ID.display (ID.ObjectId oidTest) = "$oid:" ++ oidTest.to_hex ∧
    oidTest.to_hex.length = 24 ∧
    ID.display (ID.Int64 (-7)) = "-7" :=
  ⟨(display_canonical.2.1 oidTest (by decide)).1,
   (display_canonical.2.1 oidTest (by decide)).2.1,
   by rw [display_canonical.2.2.2 (-7)]; rfl⟩

/-- C5: the text codec serializes an object id as the single-key map
`{"$oid": <24 hex chars>}`, a string as a plain string, and an integer as
a plain number; deserializing the exact map produced from a valid object
id reproduces the original `ID.ObjectId`. -/
theorem serde_native_id_round_trip (o : ObjectId) (s : String) (i : Int) :
    (o.valid →
      ID.serialize (ID.ObjectId o) = JValue.obj [("$oid", JValue.str o.to_hex)] ∧
      o.to_hex.length = 24 ∧
      ID.deserialize (ID.serialize (ID.ObjectId o)) = Except.ok (ID.ObjectId o)) ∧
    ID.serialize (ID.String s) = JValue.str s ∧
    ID.serialize (ID.Int64 i) = JValue.int i := by
  refine ⟨fun hv => ⟨rfl, to_hex_length hv, ?_⟩, rfl, rfl⟩
  have hw := with_string_to_hex hv
  simp [ID.serialize, ID.deserialize, bsonOfJKVs, bsonOfJValue,
    bsonFromExtendedDocument, hw, Bind.bind, Except.bind, ID.with_bson]

/-- Witness for C5 at the crate's test object id. -/
theorem serde_native_id_round_trip_witness :
    ID.serialize (ID.ObjectId oidTest)
      = JValue.obj [("$oid", JValue.str "5eaefffa00c9fdf000c46fdc")] ∧
    ID.deserialize (ID.serialize (ID.ObjectId oidTest)) = Except.ok (ID.ObjectId oidTest) := by
  have h := (serde_native_id_round_trip oidTest "x" 0).1 (by decide)
  have hx : oidTest.to_hex = "5eaefffa00c9fdf000c46fdc" := by decide
  rw [hx] at h
  exact ⟨h.1, h.2.2⟩

/-- C6: text-codec decoding of a boolean, a sequence, a null, or a float
is a recoverable decode error naming the unsupported shape, never a
silent coercion to some variant. -/
theorem deserialize_unsupported_shapes :
    (∀ b, ID.deserialize (JValue.bool b) = Except.error (DeError.decode
      ("invalid type: boolean " ++ toString b ++ ", expected " ++ idExpecting))) ∧
    (∀ xs, ID.deserialize (JValue.arr xs) = Except.error (DeError.decode
      ("invalid type: sequence, expected " ++ idExpecting))) ∧
    ID.deserialize JValue.null = Except.error (DeError.decode
      ("invalid type: null, expected " ++ idExpecting)) ∧
    ID.deserialize JValue.float = Except.error (DeError.decode
      ("invalid type: floating point, expected " ++ idExpecting)) :=
  ⟨fun _ => rfl, fun _ => rfl, rfl, rfl⟩

/-- C7: `ID::with_bson` maps exactly the three supported node kinds to the
matching variant, and every other node kind reaches the `panic!` arm
(modelled as `none`) instead of a typed error. -/
theorem with_bson_spec :
    (∀ s, ID.with_bson (Bson.String s) = some (ID.String s)) ∧
    (∀ o, ID.with_bson (Bson.ObjectId o) = some (ID.ObjectId o)) ∧
    (∀ i, ID.with_bson (Bson.Int64 i) = some (ID.Int64 i)) ∧
    (∀ v : Bson, (∀ s, v ≠ Bson.String s) → (∀ o, v ≠ Bson.ObjectId o) →
      (∀ i, v ≠ Bson.Int64 i) → ID.with_bson v = none) := by
  refine ⟨fun _ => rfl, fun _ => rfl, fun _ => rfl, fun v h1 h2 h3 => ?_⟩
  cases v with
  | String s => exact absurd rfl (h1 s)
  | ObjectId o => exact absurd rfl (h2 o)
  | Int64 i => exact absurd rfl (h3 i)
  | Int32 i => rfl
  | Double => rfl
  | Boolean b => rfl
  | Null => rfl
  | Array xs => rfl
  | Document kvs => rfl

/-- Witness for C7 at an unsupported node kind. -/
theorem with_bson_spec_witness : ID.with_bson Bson.Null = none :=
  with_bson_spec.2.2.2 Bson.Null (fun _ h => Bson.noConfusion h)
    (fun _ h => Bson.noConfusion h) (fun _ h => Bson.noConfusion h)

/-- C8: the narrowing conversion `From<ID> for ObjectId` returns the inner
id of an `ID.ObjectId` unchanged, parses the string of an `ID.String`
(panicking, modelled `none`, when the parse fails), and parses the decimal
string of an `ID.Int64` (panicking under the same condition). -/
theorem object_id_narrowing (o : ObjectId) (s : String) (i : Int) :
    objectIdFromID (ID.ObjectId o) = some o ∧
    objectIdFromID (ID.String s) = ObjectId.with_string s ∧
    (ObjectId.with_string s = none → objectIdFromID (ID.String s) = none) ∧
    objectIdFromID (ID.Int64 i) = ObjectId.with_string (toString i) ∧
    (ObjectId.with_string (toString i) = none → objectIdFromID (ID.Int64 i) = none) := by
  refine ⟨rfl, rfl, fun h => ?_, rfl, fun h => ?_⟩ <;> simp [objectIdFromID, h]

/-- Witness for C8: an unparsable string and an integer both panic. -/
theorem object_id_narrowing_witness :
    objectIdFromID (ID.ObjectId oidTest) = some oidTest ∧
    objectIdFromID (ID.String "nope") = none ∧
    objectIdFromID (ID.Int64 42) = none :=
  ⟨(object_id_narrowing oidTest "nope" 42).1,
   (object_id_narrowing oidTest "nope" 42).2.2.1 (by decide),
   (object_id_narrowing oidTest "nope" 42).2.2.2.2 (by decide)⟩

/-- C9: text-codec decoding of a signed 64-bit scalar yields `Int64` of
the same value; an unsigned 64-bit scalar is narrowed through the
`as i64` cast, exactly for values up to `2^63 - 1` and as the
two's-complement reinterpretation of the same 64 bits above that. -/
theorem deserialize_integer_spec (i : Int) (u : Nat) :
    ID.deserialize (JValue.int i) = Except.ok (ID.Int64 i) ∧
    ID.deserialize (JValue.uint u) = Except.ok (ID.Int64 (u64AsI64 u)) ∧
    (u ≤ 2 ^ 63 - 1 → u64AsI64 u = (u : Int)) ∧
    (2 ^ 63 - 1 < u → u < 2 ^ 64 →
      u64AsI64 u = (u : Int) - 2 ^ 64 ∧
      u64AsI64 u % 2 ^ 64 = (u : Int) % 2 ^ 64 ∧ u64AsI64 u < 0) := by
  refine ⟨rfl, rfl, fun h => ?_, fun h1 h2 => ?_⟩
  · unfold u64AsI64
    rw [if_pos (by omega)]
  · unfold u64AsI64
    rw [if_neg (by omega)]
    refine ⟨rfl, by omega, by omega⟩

/-- Witness for C9 at `u64::MAX`, a small unsigned value, and a negative
signed value. -/
theorem deserialize_integer_spec_witness :
    ID.deserialize (JValue.int (-3)) = Except.ok (ID.Int64 (-3)) ∧
    u64AsI64 (2 ^ 64 - 1) = ((2 ^ 64 - 1 : Nat) : Int) - 2 ^ 64 ∧
    u64AsI64 3 = ((3 : Nat) : Int) :=
  ⟨(deserialize_integer_spec (-3) 0).1,
   ((deserialize_integer_spec 0 (2 ^ 64 - 1)).2.2.2 (by norm_num) (by norm_num)).1,
   (deserialize_integer_spec 0 3).2.2.1 (by norm_num)⟩

/-- C10: a text-codec map input is re-dispatched into the `Bson` decoder
and then through `ID::with_bson`, so a map whose nested decode yields a
node of an unsupported kind (e.g. a plain object, which decodes as an
embedded `Document`) hits the `panic!` inside deserialization instead of
a recoverable decode error. -/
theorem deserialize_map_panic (kvs : List (String × JValue))
    (doc : List (String × Bson)) (b : Bson) :
    bsonOfJKVs kvs = Except.ok doc →
    bsonFromExtendedDocument doc = Except.ok b →
    ID.with_bson b = none →
    ID.deserialize (JValue.obj kvs) = Except.error (DeError.panic "Invalid id type used") := by
  intro h1 h2 h3
  simp only [ID.deserialize, h1, h2, h3, Bind.bind, Except.bind]

/-- Witness for C10 at the plain object `{"a": "b"}`, which decodes as an
embedded document and panics. -/
theorem deserialize_map_panic_witness :
    ID.deserialize (JValue.obj [("a", JValue.str "b")])
      = Except.error (DeError.panic "Invalid id type used") :=
  deserialize_map_panic [("a", JValue.str "b")] [("a", Bson.String "b")]
    (Bson.Document [("a", Bson.String "b")]) rfl rfl rfl

end MongoId

